import Mathlib

/-!
Verification of the CLBlast tuning-parameter database (`src/database.cc`).

The development embeds the `Database` class shallowly:
* `Precision`, `DeviceRecord`, `VendorRecord`, `DatabaseEntry` mirror the data
  model consumed by `Database::Search`;
* `Search` mirrors `Database::Search` (the hierarchical resolver), `VendorEqual`
  mirrors `Database::VendorEqual`, `GetDefines` mirrors `Database::GetDefines`,
  and `databaseConstructor` mirrors the merging `Database::Database` constructor;
* `ProcState`/`stepOp`/`runOps` model the process-level state (the compiled-in
  database plus constructed `Database` objects) to express frame properties.
-/

set_option autoImplicit false

namespace clblast

/-- The `kDefault` sentinel string used for default vendor and device names. -/
def kDefault : String := "default"

/-- The OpenCL `CL_DEVICE_TYPE_ALL` wildcard device-type constant. -/
def clDeviceTypeAll : Nat := 4294967295

/-- The OpenCL `CL_DEVICE_TYPE_CPU` device-type constant. -/
def clDeviceTypeCpu : Nat := 2

/-- The OpenCL `CL_DEVICE_TYPE_GPU` device-type constant. -/
def clDeviceTypeGpu : Nat := 4

/-- The `Precision` enumeration: single, double, complex-single, complex-double. -/
inductive Precision where
  | single
  | double
  | complexSingle
  | complexDouble
deriving DecidableEq

/-- Modelled from the spec: `Parameters` is declared in `internal/database.h`,
which is not part of the given sources; the spec describes it as an
insertion-ordered mapping from tuning-knob name (string) to integer value, so it
is embedded as an association list in insertion order. -/
abbrev Parameters := List (String × Nat)

/-- A device record: a device name (possibly the `kDefault` sentinel) and its
tuning parameters. -/
structure DeviceRecord where
  name : String
  parameters : Parameters
deriving DecidableEq

/-- A vendor record: a vendor name (possibly the `kDefault` sentinel), an OpenCL
device type, and an ordered list of device records. -/
structure VendorRecord where
  name : String
  devtype : Nat
  devices : List DeviceRecord
deriving DecidableEq

/-- A database entry: a kernel name, a precision, and an ordered list of vendor
records. -/
structure DatabaseEntry where
  kernel : String
  precision : Precision
  vendors : List VendorRecord
deriving DecidableEq

/-- The error signalled by `Database::Search` when no suitable entry exists
(`throw std::runtime_error`, described as `DatabaseLookupError` in the spec). -/
inductive DatabaseError where
  | lookupError
deriving DecidableEq

/-- `Database::VendorEqual`: a database vendor name equals a queried vendor name
when it is the `kDefault` sentinel or exactly (string-)equal to the query. -/
def VendorEqual (db_vendor cl_vendor : String) : Bool :=
  if db_vendor = kDefault then true
  else if db_vendor = cl_vendor then true
  else false

/-- The innermost loop of `Database::Search`: scan the device records in order
and return the parameters of the first one whose name equals the queried device
name or the `kDefault` sentinel. -/
def searchDevices (devices : List DeviceRecord) (this_device : String) :
    Option Parameters :=
  match devices with
  | [] => none
  | dev :: rest =>
    if dev.name = this_device ∨ dev.name = kDefault then some dev.parameters
    else searchDevices rest this_device

/-- The middle loop of `Database::Search`: scan the vendor records in order; a
record is entered when `VendorEqual` accepts its name and its device type equals
the queried type or is the `CL_DEVICE_TYPE_ALL` wildcard; if its device scan
fails the loop continues with the following vendor records. -/
def searchVendors (vendors : List VendorRecord) (this_type : Nat)
    (this_vendor this_device : String) : Option Parameters :=
  match vendors with
  | [] => none
  | ven :: rest =>
    if VendorEqual ven.name this_vendor = true ∧
        (ven.devtype = this_type ∨ ven.devtype = clDeviceTypeAll) then
      match searchDevices ven.devices this_device with
      | some ps => some ps
      | none => searchVendors rest this_type this_vendor this_device
    else searchVendors rest this_type this_vendor this_device

/-- `Database::Search`: scan the database entries in order; inside every entry
whose kernel and precision match the query, run the vendor scan; return the
first parameters found, and signal `DatabaseError.lookupError` when the whole
scan falls through. -/
def Search (dbase : List DatabaseEntry) (this_kernel : String) (this_type : Nat)
    (this_vendor this_device : String) (this_precision : Precision) :
    Except DatabaseError Parameters :=
  match dbase with
  | [] => .error .lookupError
  | entry :: rest =>
    if entry.kernel = this_kernel ∧ entry.precision = this_precision then
      match searchVendors entry.vendors this_type this_vendor this_device with
      | some ps => .ok ps
      | none => Search rest this_kernel this_type this_vendor this_device this_precision
    else Search rest this_kernel this_type this_vendor this_device this_precision

/-- `Database::GetDefines`: fold over the parameters in order, appending one
line `"#define <NAME> <VALUE>\n"` per parameter. -/
def GetDefines (parameters : Parameters) : String :=
  parameters.foldl
    (fun defines param =>
      defines ++ "#define " ++ param.1 ++ " " ++ toString param.2 ++ "\n") ""

/-- Whether an association list already holds a given key. -/
def containsKey (ps : Parameters) (key : String) : Bool :=
  ps.any (fun p => p.1 = key)

/-- First value stored under a key in an association list. -/
def lookupParam (ps : Parameters) (key : String) : Option Nat :=
  match ps with
  | [] => none
  | p :: rest => if p.1 = key then some p.2 else lookupParam rest key

/-- Modelled from the spec: `parameters_.insert(first, last)` on the standard
associative container declared in `internal/database.h` (absent from the given
sources) inserts each new pair in order, skipping keys already present — an
already-present key is never overwritten. -/
def insertParams (acc news : Parameters) : Parameters :=
  match news with
  | [] => acc
  | p :: rest =>
    if containsKey acc p.1 = true then insertParams acc rest
    else insertParams (acc ++ [p]) rest

/-- The loop of the `Database::Database` constructor: resolve each requested
kernel with `Search` against the same device fingerprint and precision, merging
the results into the accumulated parameter map; a failing `Search` propagates
its error (the constructor throws). -/
def resolveKernels (dbase : List DatabaseEntry) (this_type : Nat)
    (this_vendor this_device : String) (this_precision : Precision) :
    List String → Parameters → Except DatabaseError Parameters
  | [], acc => .ok acc
  | kern :: rest, acc =>
    match Search dbase kern this_type this_vendor this_device this_precision with
    | .error e => .error e
    | .ok found =>
      resolveKernels dbase this_type this_vendor this_device this_precision rest
        (insertParams acc found)

/-- `Database::Database`: starting from an empty map, resolve and merge every
requested kernel. -/
def databaseConstructor (dbase : List DatabaseEntry) (this_type : Nat)
    (this_vendor this_device : String) (kernels : List String)
    (this_precision : Precision) : Except DatabaseError Parameters :=
  resolveKernels dbase this_type this_vendor this_device this_precision kernels []

/-- The resolution rule as the spec words it, for comparison with `Search`:
find the first entry matching kernel and precision exactly; inside it the first
vendor record whose name equals the query or the default sentinel and whose
device type equals the query or the wildcard; inside that the first device
record whose name equals the query or the default sentinel; return its
parameters. -/
def specResolve (dbase : List DatabaseEntry) (this_kernel : String)
    (this_type : Nat) (this_vendor this_device : String)
    (this_precision : Precision) : Option Parameters :=
  (dbase.find? fun e =>
      decide (e.kernel = this_kernel ∧ e.precision = this_precision)).bind
    fun entry =>
      (entry.vendors.find? fun vr =>
          decide ((vr.name = this_vendor ∨ vr.name = kDefault) ∧
            (vr.devtype = this_type ∨ vr.devtype = clDeviceTypeAll))).bind
        fun ven =>
          (ven.devices.find? fun dr =>
              decide (dr.name = this_device ∨ dr.name = kDefault)).map
            DeviceRecord.parameters

/-- Whether a list of names holds the default sentinel exactly once, at the last
position. -/
def defaultOnlyLast (names : List String) : Bool :=
  names.getLast? == some kDefault &&
    names.dropLast.all (fun n => !(n == kDefault))

/-- The construction-time sentinel invariant: in every entry's vendor list and
every vendor's device list, a default sentinel exists and is ordered last (and
nowhere else). -/
def dbSentinelInvariant (dbase : List DatabaseEntry) : Bool :=
  dbase.all fun e =>
    defaultOnlyLast (e.vendors.map VendorRecord.name) &&
      e.vendors.all fun vr => defaultOnlyLast (vr.devices.map DeviceRecord.name)

/-- Process-level state: the compiled-in tuning database plus the parameter
maps of the `Database` objects constructed so far. -/
structure ProcState where
  database : List DatabaseEntry
  objects : List Parameters
deriving DecidableEq

/-- The operations the `Database` class exposes: constructing a `Database`
object, a raw `Search` lookup, and `GetDefines` on a constructed object. -/
inductive DbOp where
  | construct (this_type : Nat) (this_vendor this_device : String)
      (kernels : List String) (this_precision : Precision)
  | search (this_kernel : String) (this_type : Nat)
      (this_vendor this_device : String) (this_precision : Precision)
  | getDefines (idx : Nat)

/-- The observable outcome of one operation. -/
inductive OpResult where
  | constructed
  | constructFailed
  | found (ps : Parameters)
  | lookupFailed
  | defines (text : String)
  | noSuchObject

/-- One step of the process: a successful construction appends a new object; a
failed construction, a `Search`, and a `GetDefines` leave the state unchanged
apart from their observable result. -/
def stepOp (s : ProcState) : DbOp → ProcState × OpResult
  | .construct t v d ks p =>
    match databaseConstructor s.database t v d ks p with
    | .ok m => (⟨s.database, s.objects ++ [m]⟩, .constructed)
    | .error _ => (s, .constructFailed)
  | .search k t v d p =>
    match Search s.database k t v d p with
    | .ok ps => (s, .found ps)
    | .error _ => (s, .lookupFailed)
  | .getDefines idx =>
    match s.objects.get? idx with
    | some ps => (s, .defines (GetDefines ps))
    | none => (s, .noSuchObject)

/-- Run a sequence of operations from a starting state. -/
def runOps (s : ProcState) : List DbOp → ProcState
  | [] => s
  | op :: rest => runOps (stepOp s op).1 rest

/-- A concrete database satisfying the sentinel-last construction invariant, in
which the vendor record `("A", GPU)` holding device `"X"` is shadowed by an
earlier record for the same vendor with the wildcard device type. -/
def C1db : List DatabaseEntry :=
  [⟨"k", .single,
    [⟨"A", clDeviceTypeAll, [⟨"default", [("P", 0)]⟩]⟩,
     ⟨"A", clDeviceTypeGpu, [⟨"X", [("P", 1)]⟩, ⟨"default", [("P", 2)]⟩]⟩,
     ⟨"default", clDeviceTypeAll, [⟨"default", [("P", 3)]⟩]⟩]⟩]

/-! Lemmas about `GetDefines`. -/

theorem getDefines_foldl (ps : Parameters) (acc : String) :
    ps.foldl (fun defines param =>
        defines ++ "#define " ++ param.1 ++ " " ++ toString param.2 ++ "\n") acc
      = acc ++ GetDefines ps := by
  induction ps generalizing acc with
  | nil => simp [GetDefines]
  | cons p rest ih =>
    simp only [GetDefines, List.foldl_cons]
    conv_lhs => rw [ih]
    conv_rhs => rw [ih]
    simp [String.append_assoc]

theorem getDefines_cons (p : String × Nat) (ps : Parameters) :
    GetDefines (p :: ps)
      = "#define " ++ p.1 ++ " " ++ toString p.2 ++ "\n" ++ GetDefines ps := by
  simp only [GetDefines, List.foldl_cons]
  rw [getDefines_foldl]
  simp [GetDefines, String.append_assoc]

theorem sjoin_cons (s : String) (l : List String) :
    String.join (s :: l) = s ++ String.join l := by
  apply String.ext
  simp [String.join_eq, String.data_append]

/-- Claim C5: `GetDefines` produces exactly one line per parameter, each of the
form `"#define <NAME> <VALUE>\n"`, in the map's insertion order. -/
theorem C5_getDefines_one_line_per_param (ps : Parameters) :
    GetDefines ps = String.join (ps.map fun param =>
      "#define " ++ param.1 ++ " " ++ toString param.2 ++ "\n") := by
  induction ps with
  | nil => rfl
  | cons p rest ih => rw [getDefines_cons, List.map_cons, sjoin_cons, ih]

/-- Claim C10: `GetDefines` returns the empty string exactly on the empty
parameter map. -/
theorem C10_getDefines_empty_iff (ps : Parameters) :
    GetDefines ps = "" ↔ ps = [] := by
  cases ps with
  | nil => simp [GetDefines]
  | cons p rest =>
    rw [getDefines_cons]
    constructor
    · intro h
      have hl := congrArg String.length h
      simp only [String.length_append] at hl
      have h8 : ("#define " : String).length = 8 := rfl
      have h0 : ("" : String).length = 0 := rfl
      rw [h8, h0] at hl
      omega
    · intro h
      cases h

/-! Lemmas about `VendorEqual` and the three nested scan loops of `Search`. -/

theorem vendorEqual_refl (a : String) : VendorEqual a a = true := by
  unfold VendorEqual
  split
  · rfl
  · simp

theorem vendorEqual_default (b : String) : VendorEqual kDefault b = true := by
  simp [VendorEqual]

theorem vendorEqual_false (a b : String) (h1 : a ≠ kDefault) (h2 : a ≠ b) :
    VendorEqual a b = false := by
  simp [VendorEqual, h1, h2]

theorem vendorEqual_true_iff (a b : String) :
    VendorEqual a b = true ↔ (a = kDefault ∨ a = b) := by
  unfold VendorEqual
  split
  · simp [*]
  · split <;> simp [*]

theorem searchDevices_append_skip (dpre rest : List DeviceRecord) (d : String)
    (h : ∀ dr ∈ dpre, ¬(dr.name = d ∨ dr.name = kDefault)) :
    searchDevices (dpre ++ rest) d = searchDevices rest d := by
  induction dpre with
  | nil => rfl
  | cons x xs ih =>
    simp only [List.cons_append, searchDevices]
    rw [if_neg (h x (by simp))]
    exact ih fun dr hdr => h dr (by simp [hdr])

theorem searchVendors_append_skip (vpre rest : List VendorRecord) (t : Nat)
    (v d : String)
    (h : ∀ vr ∈ vpre, ¬(VendorEqual vr.name v = true ∧
      (vr.devtype = t ∨ vr.devtype = clDeviceTypeAll))) :
    searchVendors (vpre ++ rest) t v d = searchVendors rest t v d := by
  induction vpre with
  | nil => rfl
  | cons x xs ih =>
    simp only [List.cons_append, searchVendors]
    rw [if_neg (h x (by simp))]
    exact ih fun vr hvr => h vr (by simp [hvr])

theorem search_append_skip (pre rest : List DatabaseEntry) (k : String) (t : Nat)
    (v d : String) (p : Precision)
    (h : ∀ e ∈ pre, ¬(e.kernel = k ∧ e.precision = p)) :
    Search (pre ++ rest) k t v d p = Search rest k t v d p := by
  induction pre with
  | nil => rfl
  | cons x xs ih =>
    simp only [List.cons_append, Search]
    rw [if_neg (h x (by simp))]
    exact ih fun e he => h e (by simp [he])

theorem searchDevices_cons_hit (dr : DeviceRecord) (rest : List DeviceRecord)
    (d : String) (h : dr.name = d ∨ dr.name = kDefault) :
    searchDevices (dr :: rest) d = some dr.parameters := by
  simp only [searchDevices]
  rw [if_pos h]

theorem searchVendors_cons_hit (vr : VendorRecord) (rest : List VendorRecord)
    (t : Nat) (v d : String)
    (h : VendorEqual vr.name v = true ∧
      (vr.devtype = t ∨ vr.devtype = clDeviceTypeAll))
    (ps : Parameters) (hd : searchDevices vr.devices d = some ps) :
    searchVendors (vr :: rest) t v d = some ps := by
  simp only [searchVendors]
  rw [if_pos h, hd]

theorem search_cons_hit (e : DatabaseEntry) (rest : List DatabaseEntry)
    (k : String) (t : Nat) (v d : String) (p : Precision)
    (h : e.kernel = k ∧ e.precision = p) (ps : Parameters)
    (hv : searchVendors e.vendors t v d = some ps) :
    Search (e :: rest) k t v d p = .ok ps := by
  simp only [Search]
  rw [if_pos h, hv]

/-- Claim C3: when no database entry matches the requested kernel and
precision, `Search` signals `DatabaseError.lookupError` instead of returning
any parameters. -/
theorem C3_search_lookup_error (dbase : List DatabaseEntry) (k : String)
    (t : Nat) (v d : String) (p : Precision)
    (h : ∀ e ∈ dbase, ¬(e.kernel = k ∧ e.precision = p)) :
    Search dbase k t v d p = .error .lookupError := by
  induction dbase with
  | nil => rfl
  | cons e rest ih =>
    simp only [Search]
    rw [if_neg (h e (by simp))]
    exact ih fun e' he' => h e' (by simp [he'])

/-- Witness for claim C3: a database holding only an `xgemm` single-precision
entry rejects a lookup for `xaxpy`. -/
theorem C3_witness :
    (∀ e ∈ ([⟨"xgemm", .single, []⟩] : List DatabaseEntry),
      ¬(e.kernel = "xaxpy" ∧ e.precision = Precision.single)) ∧
    Search [⟨"xgemm", .single, []⟩] "xaxpy" clDeviceTypeGpu "AMD" "Tahiti"
      Precision.single = .error .lookupError :=
  ⟨by decide,
    C3_search_lookup_error [⟨"xgemm", .single, []⟩] "xaxpy" clDeviceTypeGpu
      "AMD" "Tahiti" Precision.single (by decide)⟩

/-- Counterexample to claim C1: in `C1db` the sentinel-last invariant holds and
the device record `("X", P=1)` is present verbatim under kernel `"k"`, single
precision, vendor `("A", GPU)`, yet `Search` with exactly that identity returns
the parameters `P=0` of the earlier wildcard record for vendor `"A"`. -/
theorem C1_counterexample :
    dbSentinelInvariant C1db = true
    ∧ (∃ e ∈ C1db, e.kernel = "k" ∧ e.precision = Precision.single
        ∧ ∃ vr ∈ e.vendors, vr.name = "A" ∧ vr.devtype = clDeviceTypeGpu
          ∧ ∃ dr ∈ vr.devices, dr.name = "X" ∧ dr.parameters = [("P", 1)])
    ∧ Search C1db "k" clDeviceTypeGpu "A" "X" Precision.single = .ok [("P", 0)]
    ∧ ([("P", 0)] : Parameters) ≠ [("P", 1)] :=
  ⟨by decide, by decide, rfl, by decide⟩

/-- Claim C1 (amended): a verbatim device record is returned exactly when its
position is the first match of the scan: no earlier entry matches the kernel
and precision, no earlier vendor record in its entry matches the queried vendor
name and device type, and no earlier device record in its vendor record matches
the queried device name. -/
theorem C1_roundtrip_first_match (dbase pre post : List DatabaseEntry)
    (e : DatabaseEntry) (vpre vpost : List VendorRecord) (vr : VendorRecord)
    (dpre dpost : List DeviceRecord) (dr : DeviceRecord)
    (hdb : dbase = pre ++ e :: post)
    (hvs : e.vendors = vpre ++ vr :: vpost)
    (hds : vr.devices = dpre ++ dr :: dpost)
    (hpre : ∀ e' ∈ pre, ¬(e'.kernel = e.kernel ∧ e'.precision = e.precision))
    (hvpre : ∀ v' ∈ vpre, ¬(VendorEqual v'.name vr.name = true ∧
      (v'.devtype = vr.devtype ∨ v'.devtype = clDeviceTypeAll)))
    (hdpre : ∀ d' ∈ dpre, ¬(d'.name = dr.name ∨ d'.name = kDefault)) :
    Search dbase e.kernel vr.devtype vr.name dr.name e.precision
      = .ok dr.parameters := by
  subst hdb
  rw [search_append_skip pre (e :: post) e.kernel vr.devtype vr.name dr.name
    e.precision hpre]
  apply search_cons_hit e post e.kernel vr.devtype vr.name dr.name e.precision
    ⟨rfl, rfl⟩
  rw [hvs, searchVendors_append_skip vpre (vr :: vpost) vr.devtype vr.name
    dr.name hvpre]
  apply searchVendors_cons_hit vr vpost vr.devtype vr.name dr.name
    ⟨vendorEqual_refl vr.name, Or.inl rfl⟩
  rw [hds, searchDevices_append_skip dpre (dr :: dpost) dr.name hdpre]
  exact searchDevices_cons_hit dr dpost dr.name (Or.inl rfl)

/-- Witness for the amended claim C1 at a concrete unshadowed database. -/
theorem C1_witness :
    (∀ d' ∈ ([] : List DeviceRecord), ¬(d'.name = "X" ∨ d'.name = kDefault)) ∧
    Search [⟨"k", .single,
        [⟨"A", clDeviceTypeGpu,
          [⟨"X", [("P", 1)]⟩, ⟨"default", [("P", 2)]⟩]⟩,
         ⟨"default", clDeviceTypeAll, [⟨"default", [("P", 3)]⟩]⟩]⟩]
      "k" clDeviceTypeGpu "A" "X" Precision.single = .ok [("P", 1)] :=
  ⟨by decide,
    C1_roundtrip_first_match _ [] []
      ⟨"k", .single,
        [⟨"A", clDeviceTypeGpu,
          [⟨"X", [("P", 1)]⟩, ⟨"default", [("P", 2)]⟩]⟩,
         ⟨"default", clDeviceTypeAll, [⟨"default", [("P", 3)]⟩]⟩]⟩
      [] [⟨"default", clDeviceTypeAll, [⟨"default", [("P", 3)]⟩]⟩]
      ⟨"A", clDeviceTypeGpu, [⟨"X", [("P", 1)]⟩, ⟨"default", [("P", 2)]⟩]⟩
      [] [⟨"default", [("P", 2)]⟩] ⟨"X", [("P", 1)]⟩
      rfl rfl rfl (by decide) (by decide) (by decide)⟩

/-- Claim C2: with the fully-default fallback record (default-sentinel vendor,
wildcard device type, default-sentinel device ordered last) present for the
matched kernel and precision, a query whose vendor and device names match no
non-default record resolves to the fallback's parameters and never fails. -/
theorem C2_default_fallback (dbase pre post : List DatabaseEntry)
    (e : DatabaseEntry) (vpre : List VendorRecord) (vd : VendorRecord)
    (dpre : List DeviceRecord) (dd : DeviceRecord)
    (k : String) (p : Precision) (t : Nat) (v d : String)
    (hdb : dbase = pre ++ e :: post) (hk : e.kernel = k) (hp : e.precision = p)
    (hpre : ∀ e' ∈ pre, ¬(e'.kernel = k ∧ e'.precision = p))
    (hvs : e.vendors = vpre ++ [vd])
    (hvd : vd.name = kDefault) (hvt : vd.devtype = clDeviceTypeAll)
    (hvpre : ∀ v' ∈ vpre, v'.name ≠ kDefault ∧ v'.name ≠ v)
    (hds : vd.devices = dpre ++ [dd]) (hdd : dd.name = kDefault)
    (hdpre : ∀ d' ∈ dpre, d'.name ≠ kDefault ∧ d'.name ≠ d) :
    Search dbase k t v d p = .ok dd.parameters := by
  subst hdb
  rw [search_append_skip pre (e :: post) k t v d p hpre]
  apply search_cons_hit e post k t v d p ⟨hk, hp⟩
  rw [hvs]
  rw [searchVendors_append_skip vpre [vd] t v d (fun v' hv' hcon => by
    rw [vendorEqual_false v'.name v (hvpre v' hv').1 (hvpre v' hv').2] at hcon
    cases hcon.1)]
  apply searchVendors_cons_hit vd [] t v d
    ⟨by rw [hvd]; exact vendorEqual_default v, Or.inr hvt⟩
  rw [hds]
  rw [searchDevices_append_skip dpre [dd] d (fun d' hd' hcon => by
    rcases hcon with h1 | h2
    · exact (hdpre d' hd').2 h1
    · exact (hdpre d' hd').1 h2)]
  exact searchDevices_cons_hit dd [] d (Or.inr hdd)

/-- Witness for claim C2: an unrecognized vendor and device fall through to the
fully-default record's parameters. -/
theorem C2_witness :
    (∀ v' ∈ ([⟨"NVIDIA", clDeviceTypeGpu,
        [⟨"GTX", [("P", 7)]⟩, ⟨"default", [("P", 8)]⟩]⟩] : List VendorRecord),
      v'.name ≠ kDefault ∧ v'.name ≠ "UnknownVendor") ∧
    Search [⟨"k", .single,
        [⟨"NVIDIA", clDeviceTypeGpu,
          [⟨"GTX", [("P", 7)]⟩, ⟨"default", [("P", 8)]⟩]⟩,
         ⟨"default", clDeviceTypeAll,
          [⟨"Tesla", [("P", 9)]⟩, ⟨"default", [("P", 5)]⟩]⟩]⟩]
      "k" clDeviceTypeCpu "UnknownVendor" "UnknownDevice" Precision.single
      = .ok [("P", 5)] :=
  ⟨by decide,
    C2_default_fallback _ [] []
      ⟨"k", .single,
        [⟨"NVIDIA", clDeviceTypeGpu,
          [⟨"GTX", [("P", 7)]⟩, ⟨"default", [("P", 8)]⟩]⟩,
         ⟨"default", clDeviceTypeAll,
          [⟨"Tesla", [("P", 9)]⟩, ⟨"default", [("P", 5)]⟩]⟩]⟩
      [⟨"NVIDIA", clDeviceTypeGpu, [⟨"GTX", [("P", 7)]⟩, ⟨"default", [("P", 8)]⟩]⟩]
      ⟨"default", clDeviceTypeAll, [⟨"Tesla", [("P", 9)]⟩, ⟨"default", [("P", 5)]⟩]⟩
      [⟨"Tesla", [("P", 9)]⟩] ⟨"default", [("P", 5)]⟩
      "k" Precision.single clDeviceTypeCpu "UnknownVendor" "UnknownDevice"
      rfl rfl rfl (by decide) rfl rfl rfl (by decide) rfl rfl (by decide)⟩

/-! Equivalence of `Search` with the spec-worded resolution rule `specResolve`. -/

theorem searchDevices_eq_find (devices : List DeviceRecord) (d : String) :
    searchDevices devices d
      = (devices.find? fun dr => decide (dr.name = d ∨ dr.name = kDefault)).map
          DeviceRecord.parameters := by
  induction devices with
  | nil => rfl
  | cons x xs ih =>
    by_cases hx : x.name = d ∨ x.name = kDefault
    · simp only [searchDevices]
      rw [if_pos hx, List.find?_cons_of_pos xs (by simpa using hx)]
      rfl
    · simp only [searchDevices]
      rw [if_neg hx, List.find?_cons_of_neg xs (by simpa using hx)]
      exact ih

theorem searchDevices_isSome_of_default (devices : List DeviceRecord)
    (d : String) (h : ∃ dr ∈ devices, dr.name = kDefault) :
    ∃ ps, searchDevices devices d = some ps := by
  induction devices with
  | nil =>
    obtain ⟨dr, hdr, _⟩ := h
    cases hdr
  | cons x xs ih =>
    by_cases hx : x.name = d ∨ x.name = kDefault
    · exact ⟨x.parameters, by simp only [searchDevices]; rw [if_pos hx]⟩
    · obtain ⟨dr, hdr, hname⟩ := h
      rcases List.mem_cons.mp hdr with heq | hmem
      · exact absurd (Or.inr (heq ▸ hname)) hx
      · obtain ⟨ps, hps⟩ := ih ⟨dr, hmem, hname⟩
        exact ⟨ps, by simp only [searchDevices]; rw [if_neg hx]; exact hps⟩

theorem searchVendors_eq_find (vendors : List VendorRecord) (t : Nat)
    (v d : String)
    (hinv : ∀ vr ∈ vendors, ∃ dr ∈ vr.devices, dr.name = kDefault) :
    searchVendors vendors t v d
      = (vendors.find? fun vr => decide ((vr.name = v ∨ vr.name = kDefault) ∧
          (vr.devtype = t ∨ vr.devtype = clDeviceTypeAll))).bind
          fun vr =>
            (vr.devices.find? fun dr =>
              decide (dr.name = d ∨ dr.name = kDefault)).map
              DeviceRecord.parameters := by
  induction vendors with
  | nil => rfl
  | cons x xs ih =>
    by_cases hx : VendorEqual x.name v = true ∧
        (x.devtype = t ∨ x.devtype = clDeviceTypeAll)
    · have hx' : (x.name = v ∨ x.name = kDefault) ∧
          (x.devtype = t ∨ x.devtype = clDeviceTypeAll) := by
        refine ⟨?_, hx.2⟩
        rcases (vendorEqual_true_iff x.name v).mp hx.1 with h | h
        · exact Or.inr h
        · exact Or.inl h
      rw [List.find?_cons_of_pos xs (by simpa using hx')]
      obtain ⟨ps, hps⟩ :=
        searchDevices_isSome_of_default x.devices d (hinv x (by simp))
      simp only [searchVendors]
      rw [if_pos hx, hps]
      rw [searchDevices_eq_find] at hps
      simp only [Option.some_bind]
      exact hps.symm
    · have hx' : ¬((x.name = v ∨ x.name = kDefault) ∧
          (x.devtype = t ∨ x.devtype = clDeviceTypeAll)) := by
        intro hcon
        apply hx
        refine ⟨?_, hcon.2⟩
        rw [vendorEqual_true_iff]
        rcases hcon.1 with h | h
        · exact Or.inr h
        · exact Or.inl h
      rw [List.find?_cons_of_neg xs (by simpa using hx')]
      simp only [searchVendors]
      rw [if_neg hx]
      exact ih fun vr hvr => hinv vr (by simp [hvr])

theorem search_error_of_vendorScan_none (dbase : List DatabaseEntry)
    (k : String) (t : Nat) (v d : String) (p : Precision)
    (h : ∀ e ∈ dbase, e.kernel = k → e.precision = p →
      searchVendors e.vendors t v d = none) :
    Search dbase k t v d p = .error .lookupError := by
  induction dbase with
  | nil => rfl
  | cons e rest ih =>
    by_cases he : e.kernel = k ∧ e.precision = p
    · simp only [Search]
      rw [if_pos he, h e (by simp) he.1 he.2]
      exact ih fun e' he' h1 h2 => h e' (by simp [he']) h1 h2
    · simp only [Search]
      rw [if_neg he]
      exact ih fun e' he' h1 h2 => h e' (by simp [he']) h1 h2

/-- Claim C4: under the data-model invariants (at most one entry per kernel and
precision, and a default-sentinel device inside every vendor record), `Search`
implements exactly the two-level first-match exact-or-wildcard rule worded in
the spec (`specResolve`), and non-default vendor comparison is exact string
equality. -/
theorem C4_search_eq_specResolve (dbase : List DatabaseEntry) (k : String)
    (t : Nat) (v d : String) (p : Precision)
    (huniq : ∀ e ∈ dbase, ∀ e' ∈ dbase, e.kernel = k → e.precision = p →
      e'.kernel = k → e'.precision = p → e = e')
    (hinv : ∀ e ∈ dbase, ∀ vr ∈ e.vendors, ∃ dr ∈ vr.devices,
      dr.name = kDefault) :
    (Search dbase k t v d p = match specResolve dbase k t v d p with
      | some ps => .ok ps
      | none => .error .lookupError)
    ∧ ∀ a b : String, a ≠ kDefault → (VendorEqual a b = true ↔ a = b) := by
  constructor
  · induction dbase with
    | nil => rfl
    | cons e rest ih =>
      by_cases he : e.kernel = k ∧ e.precision = p
      · have hfind : (e :: rest).find? (fun x =>
            decide (x.kernel = k ∧ x.precision = p)) = some e :=
          List.find?_cons_of_pos rest (by simpa using he)
        simp only [specResolve, hfind, Option.some_bind]
        simp only [Search]
        rw [if_pos he,
          searchVendors_eq_find e.vendors t v d (hinv e (by simp))]
        cases hvf : e.vendors.find? fun vr =>
            decide ((vr.name = v ∨ vr.name = kDefault) ∧
              (vr.devtype = t ∨ vr.devtype = clDeviceTypeAll)) with
        | some vr =>
          obtain ⟨ps, hps⟩ := searchDevices_isSome_of_default vr.devices d
            (hinv e (by simp) vr (List.mem_of_find?_eq_some hvf))
          rw [searchDevices_eq_find] at hps
          simp only [Option.some_bind, hps]
        | none =>
          simp only [Option.none_bind]
          apply search_error_of_vendorScan_none
          intro e' he' h1 h2
          have : e' = e := huniq e' (by simp [he']) e (by simp) h1 h2 he.1 he.2
          rw [this,
            searchVendors_eq_find e.vendors t v d (hinv e (by simp)), hvf]
          rfl
      · have hfind : (e :: rest).find? (fun x =>
            decide (x.kernel = k ∧ x.precision = p))
              = rest.find? (fun x => decide (x.kernel = k ∧ x.precision = p)) :=
          List.find?_cons_of_neg rest (by simpa using he)
        simp only [specResolve, hfind]
        simp only [Search]
        rw [if_neg he]
        have := ih
          (fun a ha a' ha' h1 h2 h3 h4 =>
            huniq a (by simp [ha]) a' (by simp [ha']) h1 h2 h3 h4)
          (fun a ha vr hvr => hinv a (by simp [ha]) vr hvr)
        simpa only [specResolve] using this
  · intro a b ha
    rw [vendorEqual_true_iff]
    constructor
    · intro h
      exact h.resolve_left ha
    · intro h
      exact Or.inr h

/-- Witness for claim C4 at a concrete database satisfying both invariants. -/
theorem C4_witness :
    (∀ e ∈ ([⟨"k", .single,
        [⟨"A", clDeviceTypeGpu, [⟨"X", [("P", 1)]⟩, ⟨"default", [("P", 2)]⟩]⟩,
         ⟨"default", clDeviceTypeAll, [⟨"default", [("P", 3)]⟩]⟩]⟩,
      ⟨"k", .double, [⟨"default", clDeviceTypeAll,
        [⟨"default", [("P", 4)]⟩]⟩]⟩] : List DatabaseEntry),
      ∀ vr ∈ e.vendors, ∃ dr ∈ vr.devices, dr.name = kDefault) ∧
    Search [⟨"k", .single,
        [⟨"A", clDeviceTypeGpu, [⟨"X", [("P", 1)]⟩, ⟨"default", [("P", 2)]⟩]⟩,
         ⟨"default", clDeviceTypeAll, [⟨"default", [("P", 3)]⟩]⟩]⟩,
      ⟨"k", .double, [⟨"default", clDeviceTypeAll, [⟨"default", [("P", 4)]⟩]⟩]⟩]
      "k" clDeviceTypeGpu "A" "X" Precision.single
      = match specResolve [⟨"k", .single,
          [⟨"A", clDeviceTypeGpu, [⟨"X", [("P", 1)]⟩, ⟨"default", [("P", 2)]⟩]⟩,
           ⟨"default", clDeviceTypeAll, [⟨"default", [("P", 3)]⟩]⟩]⟩,
        ⟨"k", .double, [⟨"default", clDeviceTypeAll,
          [⟨"default", [("P", 4)]⟩]⟩]⟩]
        "k" clDeviceTypeGpu "A" "X" Precision.single with
        | some ps => .ok ps
        | none => .error .lookupError :=
  ⟨by decide,
    (C4_search_eq_specResolve _ "k" clDeviceTypeGpu "A" "X" Precision.single
      (by decide) (by decide)).1⟩

/-! Lemmas about `lookupParam`, `insertParams`, and the merging constructor. -/

theorem opt_some_or (a : Nat) (o : Option Nat) : (some a).or o = some a := rfl

theorem lookupParam_append (a b : Parameters) (key : String) :
    lookupParam (a ++ b) key = (lookupParam a key).or (lookupParam b key) := by
  induction a with
  | nil => simp [lookupParam, Option.none_or]
  | cons p rest ih =>
    simp only [List.cons_append, lookupParam]
    by_cases h : p.1 = key
    · rw [if_pos h, if_pos h, opt_some_or]
    · rw [if_neg h, if_neg h]
      exact ih

theorem containsKey_iff_lookup (ps : Parameters) (key : String) :
    containsKey ps key = true ↔ ∃ n, lookupParam ps key = some n := by
  induction ps with
  | nil => simp [containsKey, lookupParam]
  | cons p rest ih =>
    by_cases h : p.1 = key
    · simp [containsKey, lookupParam, h]
    · simp only [containsKey, List.any_cons] at *
      simp only [lookupParam, if_neg h]
      simp [h, ih]

theorem lookupParam_insertParams (news acc : Parameters) (key : String) :
    lookupParam (insertParams acc news) key
      = (lookupParam acc key).or (lookupParam news key) := by
  induction news generalizing acc with
  | nil => simp [insertParams, lookupParam, Option.or_none]
  | cons p rest ih =>
    simp only [insertParams]
    by_cases hc : containsKey acc p.1 = true
    · rw [if_pos hc, ih]
      by_cases hk : p.1 = key
      · obtain ⟨n, hn⟩ := (containsKey_iff_lookup acc key).mp (hk ▸ hc)
        rw [hn, opt_some_or, opt_some_or]
      · simp only [lookupParam, if_neg hk]
    · rw [if_neg hc, ih, lookupParam_append, Option.or_assoc]
      by_cases hk : p.1 = key
      · simp only [lookupParam, if_pos hk, opt_some_or]
      · simp only [lookupParam, if_neg hk, Option.none_or]

theorem resolveKernels_mono (dbase : List DatabaseEntry) (t : Nat)
    (v d : String) (p : Precision) :
    ∀ (ks : List String) (acc m : Parameters),
      resolveKernels dbase t v d p ks acc = .ok m →
      ∀ key, containsKey acc key = true → containsKey m key = true := by
  intro ks
  induction ks with
  | nil =>
    intro acc m h key hk
    simp only [resolveKernels] at h
    cases h
    exact hk
  | cons k0 rest ih =>
    intro acc m h key hk
    simp only [resolveKernels] at h
    cases hs0 : Search dbase k0 t v d p with
    | error er => rw [hs0] at h; cases h
    | ok f =>
      rw [hs0] at h
      apply ih _ _ h
      rw [containsKey_iff_lookup] at hk ⊢
      obtain ⟨n, hn⟩ := hk
      exact ⟨n, by rw [lookupParam_insertParams, hn, opt_some_or]⟩

theorem resolveKernels_member (dbase : List DatabaseEntry) (t : Nat)
    (v d : String) (p : Precision) :
    ∀ (ks : List String) (acc m : Parameters) (kern : String) (r : Parameters)
      (key : String),
      resolveKernels dbase t v d p ks acc = .ok m → kern ∈ ks →
      Search dbase kern t v d p = .ok r → containsKey r key = true →
      containsKey m key = true := by
  intro ks
  induction ks with
  | nil =>
    intro acc m kern r key _ hk
    cases hk
  | cons k0 rest ih =>
    intro acc m kern r key h hk hs hkey
    simp only [resolveKernels] at h
    cases hs0 : Search dbase k0 t v d p with
    | error er => rw [hs0] at h; cases h
    | ok f =>
      rw [hs0] at h
      rcases List.mem_cons.mp hk with heq | hmem
      · have hfr : f = r := by
          rw [heq] at hs
          rw [hs0] at hs
          exact (Except.ok.inj hs)
        apply resolveKernels_mono dbase t v d p rest _ m h key
        rw [containsKey_iff_lookup] at hkey ⊢
        obtain ⟨n, hn⟩ := hkey
        cases hacc : lookupParam acc key with
        | none =>
          exact ⟨n, by
            rw [lookupParam_insertParams, hacc, Option.none_or, hfr, hn]⟩
        | some n' =>
          exact ⟨n', by rw [lookupParam_insertParams, hacc, opt_some_or]⟩
      · exact ih _ m kern r key h hmem hs hkey

/-- Claim C7: every key of every successfully resolved kernel's parameters
appears in the merged map produced by the `Database` constructor. -/
theorem C7_merged_union (dbase : List DatabaseEntry) (t : Nat) (v d : String)
    (p : Precision) (kernels : List String) (m : Parameters) (kern : String)
    (r : Parameters) (key : String)
    (hc : databaseConstructor dbase t v d kernels p = .ok m)
    (hk : kern ∈ kernels)
    (hs : Search dbase kern t v d p = .ok r)
    (hkey : containsKey r key = true) :
    containsKey m key = true :=
  resolveKernels_member dbase t v d p kernels [] m kern r key hc hk hs hkey

/-- Claim C9: when the two requested kernels' resolved maps share a key, the
merged map keeps the value of the kernel listed first; the later kernel's value
never overwrites it. -/
theorem C9_earlier_kernel_wins (dbase : List DatabaseEntry) (t : Nat)
    (v d : String) (p : Precision) (k1 k2 : String) (ps1 ps2 m : Parameters)
    (key : String) (n1 n2 : Nat)
    (h1 : Search dbase k1 t v d p = .ok ps1)
    (h2 : Search dbase k2 t v d p = .ok ps2)
    (hc : databaseConstructor dbase t v d [k1, k2] p = .ok m)
    (hl1 : lookupParam ps1 key = some n1)
    (hl2 : lookupParam ps2 key = some n2) :
    lookupParam m key = some n1 := by
  simp only [databaseConstructor, resolveKernels] at hc
  rw [h1, h2] at hc
  have hm : insertParams (insertParams [] ps1) ps2 = m := Except.ok.inj hc
  rw [← hm, lookupParam_insertParams, lookupParam_insertParams, hl1]
  rfl

/-- Witness for claim C7: key `"R"` resolved for kernel `"b"` appears in the
map merged over the kernels `["a", "b"]`. -/
theorem C7_witness :
    containsKey [("Q", 9), ("R", 3)] "R" = true ∧
    containsKey [("P", 1), ("Q", 2), ("R", 3)] "R" = true :=
  ⟨by decide,
    C7_merged_union
      [⟨"a", .single, [⟨"default", clDeviceTypeAll,
        [⟨"default", [("P", 1), ("Q", 2)]⟩]⟩]⟩,
       ⟨"b", .single, [⟨"default", clDeviceTypeAll,
        [⟨"default", [("Q", 9), ("R", 3)]⟩]⟩]⟩]
      clDeviceTypeGpu "V" "D" Precision.single ["a", "b"]
      [("P", 1), ("Q", 2), ("R", 3)] "b" [("Q", 9), ("R", 3)] "R"
      rfl (by decide) rfl (by decide)⟩

/-- Witness for claim C9: kernels `"a"` and `"b"` both carry key `"Q"`; the
merged map keeps the value 2 contributed by the earlier kernel `"a"`, not the
value 9 of the later kernel `"b"`. -/
theorem C9_witness :
    lookupParam [("P", 1), ("Q", 2)] "Q" = some 2 ∧
    lookupParam [("Q", 9), ("R", 3)] "Q" = some 9 ∧
    lookupParam [("P", 1), ("Q", 2), ("R", 3)] "Q" = some 2 :=
  ⟨by decide, by decide,
    C9_earlier_kernel_wins
      [⟨"a", .single, [⟨"default", clDeviceTypeAll,
        [⟨"default", [("P", 1), ("Q", 2)]⟩]⟩]⟩,
       ⟨"b", .single, [⟨"default", clDeviceTypeAll,
        [⟨"default", [("Q", 9), ("R", 3)]⟩]⟩]⟩]
      clDeviceTypeGpu "V" "D" Precision.single "a" "b"
      [("P", 1), ("Q", 2)] [("Q", 9), ("R", 3)]
      [("P", 1), ("Q", 2), ("R", 3)] "Q" 2 9
      rfl rfl rfl (by decide) (by decide)⟩

/-! The process-level frame property. -/

theorem stepOp_database (s : ProcState) (op : DbOp) :
    (stepOp s op).1.database = s.database := by
  cases op with
  | construct t v d ks p =>
    simp only [stepOp]
    cases h : databaseConstructor s.database t v d ks p with
    | error er => simp [h]
    | ok m => simp [h]
  | search k t v d p =>
    simp only [stepOp]
    cases h : Search s.database k t v d p with
    | error er => simp [h]
    | ok ps => simp [h]
  | getDefines idx =>
    simp only [stepOp]
    cases h : s.objects.get? idx with
    | none => simp [h]
    | some ps => simp [h]

/-- Claim C8: the database component of the process state is identical before
and after any sequence of construct, search, and define-materialization
operations; only the list of constructed objects grows. -/
theorem C8_database_immutable (s : ProcState) (ops : List DbOp) :
    (runOps s ops).database = s.database := by
  induction ops generalizing s with
  | nil => rfl
  | cons op rest ih =>
    simp only [runOps]
    rw [ih, stepOp_database]

theorem params_eq_of_maps_eq : ∀ (ps1 ps2 : Parameters),
    ps1.map Prod.fst = ps2.map Prod.fst → ps1.map Prod.snd = ps2.map Prod.snd →
    ps1 = ps2 := by
  intro ps1
  induction ps1 with
  | nil =>
    intro ps2 hk _
    cases ps2 with
    | nil => rfl
    | cons q qs => cases hk
  | cons p ps ih =>
    intro ps2 hk hv
    cases ps2 with
    | nil => cases hk
    | cons q qs =>
      simp only [List.map_cons, List.cons.injEq] at hk hv
      have hp : p = q := Prod.ext hk.1 hv.1
      rw [hp, ih qs hk.2 hv.2]

/-- Claim C6: `GetDefines` is deterministic; on two parameter maps with the
same keys, the same values, and the same order it produces byte-identical
strings. -/
theorem C6_getDefines_deterministic (ps1 ps2 : Parameters)
    (hkeys : ps1.map Prod.fst = ps2.map Prod.fst)
    (hvals : ps1.map Prod.snd = ps2.map Prod.snd) :
    GetDefines ps1 = GetDefines ps2 ∧
      (GetDefines ps1).data = (GetDefines ps2).data := by
  have h := params_eq_of_maps_eq ps1 ps2 hkeys hvals
  rw [h]
  exact ⟨rfl, rfl⟩

/-- Witness for claim C6 at a concrete pair of identical parameter maps. -/
theorem C6_witness :
    ([("TILE", 16), ("VW", 4)] : Parameters).map Prod.fst
        = ([("TILE", 16), ("VW", 2 + 2)] : Parameters).map Prod.fst ∧
      GetDefines [("TILE", 16), ("VW", 4)]
        = GetDefines [("TILE", 16), ("VW", 2 + 2)] :=
  ⟨rfl, (C6_getDefines_deterministic [("TILE", 16), ("VW", 4)]
    [("TILE", 16), ("VW", 2 + 2)] rfl rfl).1⟩

end clblast
